import Mathlib

/-!
Shallow embedding of the repository layer in src/server/storage.ts
(class DatabaseStorage) and proofs of the specification's claims.

The backing SQL store is modelled as explicit state: each table is a list
of rows kept in insertion order.  A SELECT without ORDER BY reads the list
as is; LIMIT 1 followed by taking element 0 is List.head?; ORDER BY is a
stable insertion sort on the createdAt key; DELETE ... WHERE keeps the
rows that do not match; INSERT appends at the end.

The database schema file (shared/schema.ts) is not part of src/, so the
store-generated columns are modelled from the spec: ids are primary keys
generated by the store (modelled by per-table counters), and createdAt
columns default to the insertion time (modelled by a clock that advances
on every insert, so later inserts get strictly larger timestamps).
-/

namespace Storage

/-- A row of the users table: id (PK), unique username
(profile fields beyond those are opaque and irrelevant to the claims). -/
structure User where
  id : String
  username : String
  deriving Repr, DecidableEq

/-- A row of the posts table: id (PK), authorName, authorHandle,
authorAvatar, content, image (nullable), createdAt. -/
structure Post where
  id : String
  authorName : String
  authorHandle : String
  authorAvatar : String
  content : String
  image : Option String
  createdAt : Nat
  deriving Repr, DecidableEq

/-- A row of the likes table: id (PK), postId, userId. -/
structure Like where
  id : Nat
  postId : String
  userId : String
  deriving Repr, DecidableEq

/-- A row of the comments table: id (PK), postId, content, author,
avatar, createdAt. -/
structure Comment where
  id : Nat
  postId : String
  content : String
  author : String
  avatar : String
  createdAt : Nat
  deriving Repr, DecidableEq

/-- The state of the backing store: the four tables (rows in insertion
order) plus the store-generated id counters and the clock used for
createdAt defaults.  Modelled from the spec: ids are store-generated
primary keys and createdAt defaults to insertion time. -/
structure Store where
  users : List User
  posts : List Post
  likes : List Like
  comments : List Comment
  nextPostId : Nat
  nextLikeId : Nat
  nextCommentId : Nat
  time : Nat
  deriving Repr

/-- Stable insertion (descending by key k): a new element goes in front of
the first element with a strictly smaller key. -/
def insertDesc (k : α → Nat) (a : α) : List α → List α
  | [] => [a]
  | b :: l => if k b < k a then a :: b :: l else b :: insertDesc k a l

/-- Stable sort, descending by key k.  Models ORDER BY key DESC. -/
def sortDesc (k : α → Nat) : List α → List α
  | [] => []
  | a :: l => insertDesc k a (sortDesc k l)

/-- Stable insertion (ascending by key k). -/
def insertAsc (k : α → Nat) (a : α) : List α → List α
  | [] => [a]
  | b :: l => if k a < k b then a :: b :: l else b :: insertAsc k a l

/-- Stable sort, ascending by key k.  Models ORDER BY key ASC. -/
def sortAsc (k : α → Nat) : List α → List α
  | [] => []
  | a :: l => insertAsc k a (sortAsc k l)

/-- DatabaseStorage.getUser: SELECT * FROM users WHERE id = ? LIMIT 1;
returns row 0 of the result, absent when there is none. -/
def getUser (s : Store) (id : String) : Option User :=
  ((s.users.filter fun u => u.id = id).take 1).head?

/-- DatabaseStorage.getUserByUsername: same shape, keyed by username. -/
def getUserByUsername (s : Store) (username : String) : Option User :=
  ((s.users.filter fun u => u.username = username).take 1).head?

/-- The record shape returned by getPosts: every posts column plus the
two aggregate counts. -/
structure PostAgg where
  id : String
  authorName : String
  authorHandle : String
  authorAvatar : String
  content : String
  image : Option String
  createdAt : Nat
  likeCount : Nat
  commentCount : Nat
  deriving Repr, DecidableEq

/-- The row getPosts builds for one post p of the grouped join:
COUNT(DISTINCT likes.id) over the like rows joined to p (those with
postId = p.id) and COUNT(DISTINCT comments.id) over the comment rows
joined to p.  DISTINCT is modelled by dedup of the id column. -/
def aggOf (s : Store) (p : Post) : PostAgg :=
  { id := p.id
    authorName := p.authorName
    authorHandle := p.authorHandle
    authorAvatar := p.authorAvatar
    content := p.content
    image := p.image
    createdAt := p.createdAt
    likeCount := ((s.likes.filter fun l => l.postId = p.id).map Like.id).dedup.length
    commentCount :=
      ((s.comments.filter fun c => c.postId = p.id).map Comment.id).dedup.length }

/-- DatabaseStorage.getPosts: posts LEFT JOIN likes LEFT JOIN comments,
GROUP BY posts.id (posts.id is the primary key, so each post row is its
own group and a post with no children keeps its row with counts 0),
ORDER BY posts.createdAt DESC. -/
def getPosts (s : Store) : List PostAgg :=
  (sortDesc Post.createdAt s.posts).map (aggOf s)

/-- DatabaseStorage.getPost: SELECT * FROM posts WHERE id = ? LIMIT 1. -/
def getPost (s : Store) (id : String) : Option Post :=
  ((s.posts.filter fun p => p.id = id).take 1).head?

/-- DatabaseStorage.getPostsByRoom: posts have no roomId column, so the
query ignores roomId and returns all posts ORDER BY createdAt DESC. -/
def getPostsByRoom (s : Store) (roomId : String) : List Post :=
  sortDesc Post.createdAt s.posts

/-- The caller-supplied columns of a new post (id and createdAt are
store-generated). -/
structure InsertPost where
  authorName : String
  authorHandle : String
  authorAvatar : String
  content : String
  image : Option String
  deriving Repr, DecidableEq

/-- DatabaseStorage.createPost: INSERT ... RETURNING.  Modelled from the
spec: the store generates the id and stamps createdAt with the insertion
time. -/
def createPost (s : Store) (p : InsertPost) : Store × Post :=
  let post : Post :=
    { id := toString s.nextPostId
      authorName := p.authorName
      authorHandle := p.authorHandle
      authorAvatar := p.authorAvatar
      content := p.content
      image := p.image
      createdAt := s.time }
  ({ s with posts := s.posts ++ [post]
            nextPostId := s.nextPostId + 1
            time := s.time + 1 }, post)

/-- DatabaseStorage.getLikesByPost: SELECT * FROM likes WHERE postId = ?. -/
def getLikesByPost (s : Store) (postId : String) : List Like :=
  s.likes.filter fun l => l.postId = postId

/-- DatabaseStorage.getLikesCount: SELECT COUNT(*) FROM likes WHERE
postId = ?; the JS fallback (result[0]?.count || 0) maps a missing or
zero count to 0, so the result is the number of matching rows. -/
def getLikesCount (s : Store) (postId : String) : Nat :=
  (s.likes.filter fun l => l.postId = postId).length

/-- DatabaseStorage.checkUserLike: SELECT * FROM likes WHERE postId = ?
AND userId = ? LIMIT 1; returns (result.length > 0). -/
def checkUserLike (s : Store) (postId userId : String) : Bool :=
  ((s.likes.filter fun l => l.postId = postId ∧ l.userId = userId).take 1).length > 0

/-- DatabaseStorage.checkLike: alias that delegates to checkUserLike. -/
def checkLike (s : Store) (postId userId : String) : Bool :=
  checkUserLike s postId userId

/-- DatabaseStorage.addLike: INSERT INTO likes (postId, userId) with no
existence check; the id is store-generated. -/
def addLike (s : Store) (postId userId : String) : Store :=
  { s with likes := s.likes ++ [{ id := s.nextLikeId, postId := postId, userId := userId }]
           nextLikeId := s.nextLikeId + 1 }

/-- The first statement of DatabaseStorage.toggleLike: SELECT * FROM
likes WHERE postId = ? AND userId = ? LIMIT 1 (the existing-like lookup,
element 0 of the result). -/
def toggleSelect (s : Store) (postId userId : String) : Option Like :=
  ((s.likes.filter fun l => l.postId = postId ∧ l.userId = userId).take 1).head?

/-- The second statement of DatabaseStorage.toggleLike, issued after the
lookup: if a row was found, DELETE FROM likes WHERE id = thatRow.id and
report liked = false; otherwise INSERT the new like and report
liked = true. -/
def toggleWrite (s : Store) (postId userId : String) :
    Option Like → Store × Bool
  | some ex => ({ s with likes := s.likes.filter fun l => l.id ≠ ex.id }, false)
  | none => (addLike s postId userId, true)

/-- DatabaseStorage.toggleLike: the lookup followed by the dependent
write, run back to back with no interleaved statement. -/
def toggleLike (s : Store) (postId userId : String) : Store × Bool :=
  toggleWrite s postId userId (toggleSelect s postId userId)

/-- DatabaseStorage.getCommentsByPost: SELECT * FROM comments WHERE
postId = ? ORDER BY createdAt (ascending). -/
def getCommentsByPost (s : Store) (postId : String) : List Comment :=
  sortAsc Comment.createdAt (s.comments.filter fun c => c.postId = postId)

/-- DatabaseStorage.getComments: the same filtered, ordered rows
projected to the content column. -/
def getComments (s : Store) (postId : String) : List String :=
  (sortAsc Comment.createdAt (s.comments.filter fun c => c.postId = postId)).map
    Comment.content

/-- DatabaseStorage.addComment: INSERT INTO comments with the fixed
placeholder author and avatar; id and createdAt are store-generated. -/
def addComment (s : Store) (postId text : String) : Store :=
  { s with comments := s.comments ++
      [{ id := s.nextCommentId
         postId := postId
         content := text
         author := "زائر"
         avatar := "https://via.placeholder.com/60"
         createdAt := s.time }]
           nextCommentId := s.nextCommentId + 1
           time := s.time + 1 }

/-- Number of Like rows currently stored for a (postId, userId) pair. -/
def countPair (s : Store) (postId userId : String) : Nat :=
  (s.likes.filter fun l => l.postId = postId ∧ l.userId = userId).length

/-- toggleLike applied n times in strict sequence from state s. -/
def iterToggle (s : Store) (postId userId : String) : Nat → Store
  | 0 => s
  | n + 1 => (toggleLike (iterToggle s postId userId n) postId userId).1

/-- A concrete empty store, used to evaluate the operations. -/
def emptyStore : Store :=
  { users := [], posts := [], likes := [], comments := []
    nextPostId := 0, nextLikeId := 0, nextCommentId := 0, time := 0 }

/-! ### Properties of the two sorts -/

theorem perm_insertDesc (k : α → Nat) (a : α) (l : List α) :
    (insertDesc k a l).Perm (a :: l) := by
  induction l with
  | nil => simp [insertDesc]
  | cons b t ih =>
    by_cases h : k b < k a
    · simp [insertDesc, h]
    · simpa [insertDesc, h] using (ih.cons b).trans (List.Perm.swap a b t)

theorem perm_sortDesc (k : α → Nat) (l : List α) : (sortDesc k l).Perm l := by
  induction l with
  | nil => simp [sortDesc]
  | cons a t ih => exact (perm_insertDesc k a (sortDesc k t)).trans (ih.cons a)

theorem perm_insertAsc (k : α → Nat) (a : α) (l : List α) :
    (insertAsc k a l).Perm (a :: l) := by
  induction l with
  | nil => simp [insertAsc]
  | cons b t ih =>
    by_cases h : k a < k b
    · simp [insertAsc, h]
    · simpa [insertAsc, h] using (ih.cons b).trans (List.Perm.swap a b t)

theorem perm_sortAsc (k : α → Nat) (l : List α) : (sortAsc k l).Perm l := by
  induction l with
  | nil => simp [sortAsc]
  | cons a t ih => exact (perm_insertAsc k a (sortAsc k t)).trans (ih.cons a)

theorem mem_insertDesc (k : α → Nat) (a x : α) (l : List α) :
    x ∈ insertDesc k a l ↔ x = a ∨ x ∈ l := by
  rw [(perm_insertDesc k a l).mem_iff, List.mem_cons]

theorem mem_insertAsc (k : α → Nat) (a x : α) (l : List α) :
    x ∈ insertAsc k a l ↔ x = a ∨ x ∈ l := by
  rw [(perm_insertAsc k a l).mem_iff, List.mem_cons]

theorem pairwise_insertDesc (k : α → Nat) (a : α) (l : List α)
    (h : l.Pairwise fun x y => k y ≤ k x) :
    (insertDesc k a l).Pairwise fun x y => k y ≤ k x := by
  induction l with
  | nil => simp [insertDesc]
  | cons b t ih =>
    rw [List.pairwise_cons] at h
    by_cases hab : k b < k a
    · rw [insertDesc, if_pos hab, List.pairwise_cons]
      refine ⟨?_, List.pairwise_cons.mpr h⟩
      intro x hx
      rcases List.mem_cons.mp hx with rfl | hx
      · exact Nat.le_of_lt hab
      · exact Nat.le_trans (h.1 x hx) (Nat.le_of_lt hab)
    · rw [insertDesc, if_neg hab, List.pairwise_cons]
      refine ⟨?_, ih h.2⟩
      intro x hx
      rcases (mem_insertDesc k a x t).mp hx with rfl | hx
      · exact Nat.le_of_not_lt hab
      · exact h.1 x hx

theorem pairwise_sortDesc (k : α → Nat) (l : List α) :
    (sortDesc k l).Pairwise fun x y => k y ≤ k x := by
  induction l with
  | nil => simp [sortDesc]
  | cons a t ih => exact pairwise_insertDesc k a (sortDesc k t) ih

theorem pairwise_insertAsc (k : α → Nat) (a : α) (l : List α)
    (h : l.Pairwise fun x y => k x ≤ k y) :
    (insertAsc k a l).Pairwise fun x y => k x ≤ k y := by
  induction l with
  | nil => simp [insertAsc]
  | cons b t ih =>
    rw [List.pairwise_cons] at h
    by_cases hab : k a < k b
    · rw [insertAsc, if_pos hab, List.pairwise_cons]
      refine ⟨?_, List.pairwise_cons.mpr h⟩
      intro x hx
      rcases List.mem_cons.mp hx with rfl | hx
      · exact Nat.le_of_lt hab
      · exact Nat.le_trans (Nat.le_of_lt hab) (h.1 x hx)
    · rw [insertAsc, if_neg hab, List.pairwise_cons]
      refine ⟨?_, ih h.2⟩
      intro x hx
      rcases (mem_insertAsc k a x t).mp hx with rfl | hx
      · exact Nat.le_of_not_lt hab
      · exact h.1 x hx

theorem pairwise_sortAsc (k : α → Nat) (l : List α) :
    (sortAsc k l).Pairwise fun x y => k x ≤ k y := by
  induction l with
  | nil => simp [sortAsc]
  | cons a t ih => exact pairwise_insertAsc k a (sortAsc k t) ih

/-! ### Properties of the like operations -/

theorem checkUserLike_eq (s : Store) (p u : String) :
    checkUserLike s p u = decide (0 < countPair s p u) := by
  unfold checkUserLike countPair
  rw [decide_eq_decide]
  rw [List.length_take]
  omega

theorem countPair_addLike (s : Store) (p u : String) :
    countPair (addLike s p u) p u = countPair s p u + 1 := by
  simp [countPair, addLike, List.filter_append]

theorem toggleSelect_eq_none (s : Store) (p u : String)
    (hz : countPair s p u = 0) : toggleSelect s p u = none := by
  unfold toggleSelect
  rw [List.length_eq_zero.mp hz]
  rfl

theorem toggleLike_of_count_zero (s : Store) (p u : String)
    (hz : countPair s p u = 0) : toggleLike s p u = (addLike s p u, true) := by
  rw [toggleLike, toggleSelect_eq_none s p u hz]
  rfl

theorem toggleLike_of_count_one (s : Store) (p u : String)
    (h1 : countPair s p u = 1) :
    (toggleLike s p u).2 = false ∧ countPair (toggleLike s p u).1 p u = 0 := by
  obtain ⟨ex, hex⟩ := List.length_eq_one.mp h1
  have hsel : toggleSelect s p u = some ex := by
    unfold toggleSelect
    rw [hex]
    rfl
  have hmem : ∀ l ∈ s.likes, l.postId = p ∧ l.userId = u → l = ex := by
    intro l hl hpu
    have hlf : l ∈ (s.likes.filter fun l => l.postId = p ∧ l.userId = u) :=
      List.mem_filter.mpr ⟨hl, by simpa using hpu⟩
    rw [hex] at hlf
    simpa using hlf
  rw [toggleLike, hsel]
  refine ⟨rfl, ?_⟩
  unfold countPair toggleWrite
  rw [List.length_eq_zero, List.eq_nil_iff_forall_not_mem]
  intro l hl
  rw [List.mem_filter] at hl
  obtain ⟨hl', hpu⟩ := hl
  rw [List.mem_filter] at hl'
  obtain ⟨hls, hid⟩ := hl'
  exact (by simpa using hid : l.id ≠ ex.id)
    (congrArg Like.id (hmem l hls (by simpa using hpu)))

theorem iterToggle_count (s : Store) (p u : String)
    (hz : countPair s p u = 0) (n : Nat) :
    countPair (iterToggle s p u n) p u = n % 2 := by
  induction n with
  | zero => simpa [iterToggle] using hz
  | succ m ih =>
    show countPair (toggleLike (iterToggle s p u m) p u).1 p u = (m + 1) % 2
    rcases Nat.mod_two_eq_zero_or_one m with h | h
    · have h0 : countPair (iterToggle s p u m) p u = 0 := by rw [ih, h]
      rw [toggleLike_of_count_zero _ p u h0]
      rw [countPair_addLike, h0]
      omega
    · have hone : countPair (iterToggle s p u m) p u = 1 := by rw [ih, h]
      rw [(toggleLike_of_count_one _ p u hone).2]
      omega

/-! ### Claim theorems -/

/-- C1: starting from a state with no Like row for (p, u), n strictly
sequential toggleLike(p, u) calls leave checkUserLike(p, u) false when n
is even and true when n is odd, and the liked value returned by each
individual call equals checkUserLike(p, u) right after that call. -/
theorem toggle_law (s : Store) (p u : String) (hz : countPair s p u = 0)
    (n : Nat) :
    checkUserLike (iterToggle s p u n) p u = decide (n % 2 = 1) ∧
    (toggleLike (iterToggle s p u n) p u).2 =
      checkUserLike (iterToggle s p u (n + 1)) p u := by
  have hn := iterToggle_count s p u hz n
  have hn1 := iterToggle_count s p u hz (n + 1)
  constructor
  · rw [checkUserLike_eq, hn, decide_eq_decide]
    omega
  · rw [checkUserLike_eq, hn1]
    rcases Nat.mod_two_eq_zero_or_one n with h | h
    · have h0 : countPair (iterToggle s p u n) p u = 0 := by rw [hn, h]
      rw [toggleLike_of_count_zero _ p u h0]
      have he : (n + 1) % 2 = 1 := by omega
      rw [he]
      rfl
    · have hone : countPair (iterToggle s p u n) p u = 1 := by rw [hn, h]
      rw [(toggleLike_of_count_one _ p u hone).1]
      have he : (n + 1) % 2 = 0 := by omega
      rw [he]
      rfl

theorem toggle_law_witness :
    countPair emptyStore "p1" "u1" = 0 ∧
    (checkUserLike (iterToggle emptyStore "p1" "u1" 3) "p1" "u1" =
        decide (3 % 2 = 1) ∧
      (toggleLike (iterToggle emptyStore "p1" "u1" 3) "p1" "u1").2 =
        checkUserLike (iterToggle emptyStore "p1" "u1" 4) "p1" "u1") :=
  ⟨rfl, toggle_law emptyStore "p1" "u1" rfl 3⟩

/-- C2 (the code violates the claim): the interleaving in which two
concurrent toggleLike("p1", "u1") calls both run their SELECT against the
initial empty store before either runs its dependent write leaves two
Like rows for the pair — the lookup and the write are separate
statements, so toggleLike is not atomic with respect to itself. -/
theorem toggleLike_race :
    countPair
      (toggleWrite
        (toggleWrite emptyStore "p1" "u1"
          (toggleSelect emptyStore "p1" "u1")).1
        "p1" "u1" (toggleSelect emptyStore "p1" "u1")).1
      "p1" "u1" = 2 := by
  rfl

/-- C5: getPostsByRoom ignores its roomId argument — any two roomIds give
the same result on the same store, namely every post ordered by creation
time descending. -/
theorem getPostsByRoom_ignores_room (s : Store) (r1 r2 : String) :
    getPostsByRoom s r1 = getPostsByRoom s r2 ∧
    getPostsByRoom s r1 = sortDesc Post.createdAt s.posts :=
  ⟨rfl, rfl⟩

/-- C6: addLike inserts unconditionally — two sequential addLike(p, u)
calls always grow the number of Like rows for (p, u) by exactly two, so
the pair ends with more than one row (the at-most-one invariant breaks). -/
theorem addLike_no_check (s : Store) (p u : String) :
    countPair (addLike (addLike s p u) p u) p u = countPair s p u + 2 ∧
    1 < countPair (addLike (addLike s p u) p u) p u := by
  have h := countPair_addLike (addLike s p u) p u
  have h' := countPair_addLike s p u
  refine ⟨by rw [h, h'], by rw [h, h']; omega⟩

/-- C7: getCommentsByPost(pid) is exactly the comments whose postId is
pid (a permutation of that filter of the table), in ascending
creation-time order, and getComments(pid) is the same list projected to
the content field. -/
theorem comments_exact_and_projected (s : Store) (pid : String) :
    (getCommentsByPost s pid).Perm
      (s.comments.filter fun c => c.postId = pid) ∧
    (getCommentsByPost s pid).Pairwise
      (fun a b => a.createdAt ≤ b.createdAt) ∧
    getComments s pid = (getCommentsByPost s pid).map Comment.content :=
  ⟨perm_sortAsc _ _, pairwise_sortAsc _ _, rfl⟩

/-- A concrete post used to evaluate the theorems. -/
def samplePost : Post :=
  { id := "0", authorName := "ali", authorHandle := "ali1"
    authorAvatar := "a.png", content := "hello", image := none
    createdAt := 5 }

/-- A concrete store with one user, one post, one like and one comment. -/
def sampleStore : Store :=
  { users := [{ id := "u1", username := "alice" }]
    posts := [samplePost]
    likes := [{ id := 0, postId := "0", userId := "u1" }]
    comments := [{ id := 0, postId := "0", content := "hi", author := "bob"
                   avatar := "b.png", createdAt := 1 }]
    nextPostId := 1, nextLikeId := 1, nextCommentId := 1, time := 6 }

/-- A concrete store with one post and no likes or comments. -/
def lonelyStore : Store :=
  { users := [], posts := [samplePost], likes := [], comments := []
    nextPostId := 1, nextLikeId := 0, nextCommentId := 0, time := 6 }

/-- A concrete store holding two Like rows for the same (postId, userId)
pair, as direct addLike misuse produces. -/
def dupStore : Store :=
  { users := [], posts := [samplePost]
    likes := [{ id := 0, postId := "0", userId := "u1" },
              { id := 1, postId := "0", userId := "u1" }]
    comments := []
    nextPostId := 1, nextLikeId := 2, nextCommentId := 0, time := 6 }

/-- C3: when the like and comment primary keys are distinct (as primary
keys are), every row of getPosts carries likeCount equal to
getLikesCount of its post id and commentCount equal to the length of
getCommentsByPost of its post id, over the same store state. -/
theorem getPosts_counts_agree (s : Store)
    (hL : (s.likes.map Like.id).Nodup)
    (hC : (s.comments.map Comment.id).Nodup) :
    ∀ e ∈ getPosts s,
      e.likeCount = getLikesCount s e.id ∧
      e.commentCount = (getCommentsByPost s e.id).length := by
  intro e he
  obtain ⟨post, hp, rfl⟩ := List.mem_map.mp he
  have hndL :
      ((s.likes.filter fun l => l.postId = post.id).map Like.id).Nodup :=
    hL.sublist (List.Sublist.map _ (List.filter_sublist _))
  have hndC :
      ((s.comments.filter fun c => c.postId = post.id).map
        Comment.id).Nodup :=
    hC.sublist (List.Sublist.map _ (List.filter_sublist _))
  constructor
  · show ((s.likes.filter fun l => l.postId = post.id).map
        Like.id).dedup.length = getLikesCount s post.id
    rw [List.dedup_eq_self.mpr hndL, List.length_map]
    rfl
  · show ((s.comments.filter fun c => c.postId = post.id).map
        Comment.id).dedup.length = (getCommentsByPost s post.id).length
    rw [List.dedup_eq_self.mpr hndC, List.length_map]
    exact (perm_sortAsc Comment.createdAt _).length_eq.symm

theorem getPosts_counts_agree_witness :
    (sampleStore.likes.map Like.id).Nodup ∧
    (sampleStore.comments.map Comment.id).Nodup ∧
    ((aggOf sampleStore samplePost).likeCount =
        getLikesCount sampleStore (aggOf sampleStore samplePost).id ∧
      (aggOf sampleStore samplePost).commentCount =
        (getCommentsByPost sampleStore
          (aggOf sampleStore samplePost).id).length) :=
  ⟨by decide, by decide,
    getPosts_counts_agree sampleStore (by decide) (by decide)
      (aggOf sampleStore samplePost) (by decide)⟩

/-- C4: every post of the store appears in getPosts (annotated by
aggOf), and a post with zero Like rows gets likeCount 0 and one with
zero Comment rows gets commentCount 0 — the row is neither dropped nor
left without a count. -/
theorem getPosts_keeps_all (s : Store) (p : Post) (hp : p ∈ s.posts) :
    aggOf s p ∈ getPosts s ∧ (aggOf s p).id = p.id ∧
    ((s.likes.filter fun l => l.postId = p.id) = [] →
      (aggOf s p).likeCount = 0) ∧
    ((s.comments.filter fun c => c.postId = p.id) = [] →
      (aggOf s p).commentCount = 0) := by
  refine ⟨?_, rfl, ?_, ?_⟩
  · exact List.mem_map_of_mem _
      ((perm_sortDesc Post.createdAt s.posts).mem_iff.mpr hp)
  · intro h
    show ((s.likes.filter fun l => l.postId = p.id).map
        Like.id).dedup.length = 0
    rw [h]
    rfl
  · intro h
    show ((s.comments.filter fun c => c.postId = p.id).map
        Comment.id).dedup.length = 0
    rw [h]
    rfl

theorem getPosts_keeps_all_witness :
    samplePost ∈ lonelyStore.posts ∧
    (aggOf lonelyStore samplePost ∈ getPosts lonelyStore ∧
      (aggOf lonelyStore samplePost).id = samplePost.id ∧
      ((lonelyStore.likes.filter fun l => l.postId = samplePost.id) = [] →
        (aggOf lonelyStore samplePost).likeCount = 0) ∧
      ((lonelyStore.comments.filter fun c => c.postId = samplePost.id)
          = [] →
        (aggOf lonelyStore samplePost).commentCount = 0)) :=
  ⟨by decide, getPosts_keeps_all lonelyStore samplePost (by decide)⟩

/-- C9: the point lookups getUser, getUserByUsername and getPost are
total functions into an option type: whenever no row matches the key the
result is none (absence, not an error). -/
theorem lookups_absent (s : Store) :
    (∀ i, (∀ u ∈ s.users, u.id ≠ i) → getUser s i = none) ∧
    (∀ nm, (∀ u ∈ s.users, u.username ≠ nm) →
      getUserByUsername s nm = none) ∧
    (∀ i, (∀ q ∈ s.posts, q.id ≠ i) → getPost s i = none) := by
  refine ⟨?_, ?_, ?_⟩
  · intro i hk
    unfold getUser
    rw [List.filter_eq_nil_iff.mpr (by intro u hu; simpa using hk u hu)]
    rfl
  · intro nm hk
    unfold getUserByUsername
    rw [List.filter_eq_nil_iff.mpr (by intro u hu; simpa using hk u hu)]
    rfl
  · intro i hk
    unfold getPost
    rw [List.filter_eq_nil_iff.mpr (by intro q hq; simpa using hk q hq)]
    rfl

theorem lookups_absent_witness :
    (∀ u ∈ sampleStore.users, u.id ≠ "zzz") ∧
    getUser sampleStore "zzz" = none ∧
    getUserByUsername sampleStore "nobody" = none ∧
    getPost sampleStore "zzz" = none :=
  ⟨by decide,
    (lookups_absent sampleStore).1 "zzz" (by decide),
    (lookups_absent sampleStore).2.1 "nobody" (by decide),
    (lookups_absent sampleStore).2.2 "zzz" (by decide)⟩

/-- C10: when a (p, u) pair has two or more Like rows (with distinct
primary keys), toggleLike deletes exactly one of them — the single row
its SELECT fetched, by its id — returns liked = false, and
checkUserLike(p, u) is still true right afterwards: one call does not
restore the un-liked state. -/
theorem toggle_with_duplicates (s : Store) (p u : String)
    (h2 : 2 ≤ countPair s p u) (hids : (s.likes.map Like.id).Nodup) :
    (toggleLike s p u).2 = false ∧
    countPair (toggleLike s p u).1 p u + 1 = countPair s p u ∧
    checkUserLike (toggleLike s p u).1 p u = true := by
  obtain ⟨ex, y, t, hm⟩ :
      ∃ ex y t, (s.likes.filter fun l => l.postId = p ∧ l.userId = u)
        = ex :: y :: t := by
    rcases hc : s.likes.filter fun l => l.postId = p ∧ l.userId = u with
      _ | ⟨a, _ | ⟨b, t⟩⟩
    · rw [countPair, hc] at h2
      simp at h2
    · rw [countPair, hc] at h2
      simp at h2
    · exact ⟨a, b, t, hc⟩
  have hsel : toggleSelect s p u = some ex := by
    unfold toggleSelect
    rw [hm]
    rfl
  have htog : toggleLike s p u =
      ({ s with likes := s.likes.filter fun l => l.id ≠ ex.id }, false) := by
    rw [toggleLike, hsel]
    rfl
  have hsub : ((ex :: y :: t).map Like.id).Nodup := by
    rw [← hm]
    exact hids.sublist (List.Sublist.map _ (List.filter_sublist _))
  rw [List.map_cons, List.nodup_cons] at hsub
  have hall : ∀ z ∈ y :: t, z.id ≠ ex.id := by
    intro z hz hcon
    exact hsub.1 (hcon ▸ List.mem_map_of_mem Like.id hz)
  have hy : y ∈ s.likes.filter fun l => l.postId = p ∧ l.userId = u := by
    rw [hm]
    simp
  obtain ⟨hys, hypair⟩ := List.mem_filter.mp hy
  have hy2 : y ∈ (toggleLike s p u).1.likes.filter
      fun l => l.postId = p ∧ l.userId = u := by
    rw [htog]
    refine List.mem_filter.mpr ⟨List.mem_filter.mpr ⟨hys, ?_⟩, hypair⟩
    simpa using hall y (List.mem_cons_self _ _)
  refine ⟨by rw [htog], ?_, ?_⟩
  · rw [htog]
    show ((s.likes.filter fun l => l.id ≠ ex.id).filter
        fun l => l.postId = p ∧ l.userId = u).length + 1
      = (s.likes.filter fun l => l.postId = p ∧ l.userId = u).length
    rw [List.filter_comm, hm]
    have hfe : (ex :: y :: t).filter (fun l => l.id ≠ ex.id) = y :: t := by
      have h1 : (ex :: y :: t).filter (fun l => l.id ≠ ex.id)
          = (y :: t).filter (fun l => l.id ≠ ex.id) := by
        simp
      rw [h1, List.filter_eq_self]
      intro z hz
      simpa using hall z hz
    rw [hfe]
    simp
  · rw [checkUserLike_eq]
    have hpos : 0 < countPair (toggleLike s p u).1 p u :=
      List.length_pos.mpr (List.ne_nil_of_mem hy2)
    simpa using hpos

theorem aggOf_createdAt (s : Store) (p : Post) :
    (aggOf s p).createdAt = p.createdAt := rfl

theorem pairwise_getPosts (s : Store) :
    (getPosts s).Pairwise fun a b => b.createdAt ≤ a.createdAt := by
  unfold getPosts
  exact List.Pairwise.map _ (fun a b h => h)
    (pairwise_sortDesc Post.createdAt s.posts)

theorem sublist_of_mem_lt (s' : Store) (x y : PostAgg)
    (hx : x ∈ getPosts s') (hy : y ∈ getPosts s')
    (hlt : y.createdAt < x.createdAt) :
    [x, y].Sublist (getPosts s') := by
  obtain ⟨l1, l2, hsplit⟩ := List.append_of_mem hx
  have hpw := pairwise_getPosts s'
  rw [hsplit] at hpw hy ⊢
  obtain ⟨-, -, hcross⟩ := List.pairwise_append.mp hpw
  rcases List.mem_append.mp hy with h1 | h1
  · have := hcross y h1 x (List.mem_cons_self _ _)
    omega
  · rcases List.mem_cons.mp h1 with rfl | h2
    · exact absurd hlt (lt_irrefl _)
    · exact (List.Sublist.cons₂ x (List.singleton_sublist.mpr h2)).trans
        (List.sublist_append_right l1 (x :: l2))

/-- C8: getPostsByRoom and getPosts return posts newest-first
(descending createdAt); moreover, inserting post P1 and then post P2 via
createPost into a store whose existing posts predate the clock, the P2
row of getPosts (the unique row stamped time + 1) appears strictly
before the P1 row (the unique row stamped time). -/
theorem posts_newest_first (s : Store) (r : String)
    (inp1 inp2 : InsertPost)
    (hT : ∀ p ∈ s.posts, p.createdAt < s.time) :
    (getPostsByRoom s r).Pairwise
      (fun a b => b.createdAt ≤ a.createdAt) ∧
    (getPosts s).Pairwise (fun a b => b.createdAt ≤ a.createdAt) ∧
    ∃ e2 e1 : PostAgg,
      e2.createdAt = s.time + 1 ∧ e1.createdAt = s.time ∧
      [e2, e1].Sublist (getPosts (createPost (createPost s inp1).1 inp2).1) ∧
      (∀ a ∈ getPosts (createPost (createPost s inp1).1 inp2).1,
        a.createdAt = s.time + 1 → a = e2) ∧
      (∀ a ∈ getPosts (createPost (createPost s inp1).1 inp2).1,
        a.createdAt = s.time → a = e1) := by
  refine ⟨pairwise_sortDesc Post.createdAt s.posts, pairwise_getPosts s, ?_⟩
  have hposts : (createPost (createPost s inp1).1 inp2).1.posts
      = (s.posts ++ [(createPost s inp1).2])
        ++ [(createPost (createPost s inp1).1 inp2).2] := rfl
  have ht1 : ((createPost s inp1).2).createdAt = s.time := rfl
  have ht2 : ((createPost (createPost s inp1).1 inp2).2).createdAt
      = s.time + 1 := rfl
  have hm2 : (createPost (createPost s inp1).1 inp2).2
      ∈ (createPost (createPost s inp1).1 inp2).1.posts := by
    rw [hposts]
    simp
  have hm1 : (createPost s inp1).2
      ∈ (createPost (createPost s inp1).1 inp2).1.posts := by
    rw [hposts]
    simp
  have hmm2 : aggOf (createPost (createPost s inp1).1 inp2).1
        (createPost (createPost s inp1).1 inp2).2
      ∈ getPosts (createPost (createPost s inp1).1 inp2).1 :=
    List.mem_map_of_mem _ ((perm_sortDesc Post.createdAt _).mem_iff.mpr hm2)
  have hmm1 : aggOf (createPost (createPost s inp1).1 inp2).1
        (createPost s inp1).2
      ∈ getPosts (createPost (createPost s inp1).1 inp2).1 :=
    List.mem_map_of_mem _ ((perm_sortDesc Post.createdAt _).mem_iff.mpr hm1)
  have huniq : ∀ a ∈ getPosts (createPost (createPost s inp1).1 inp2).1,
      (a.createdAt = s.time + 1 →
        a = aggOf (createPost (createPost s inp1).1 inp2).1
          (createPost (createPost s inp1).1 inp2).2) ∧
      (a.createdAt = s.time →
        a = aggOf (createPost (createPost s inp1).1 inp2).1
          (createPost s inp1).2) := by
    intro a ha
    obtain ⟨q, hq, rfl⟩ := List.mem_map.mp ha
    have hq' : q ∈ (createPost (createPost s inp1).1 inp2).1.posts :=
      (perm_sortDesc Post.createdAt _).mem_iff.mp hq
    rw [hposts] at hq'
    rw [aggOf_createdAt]
    rcases List.mem_append.mp hq' with hq'' | hq''
    · rcases List.mem_append.mp hq'' with hq3 | hq3
      · have hlt := hT q hq3
        exact ⟨fun hat => absurd hat (by omega),
          fun hat => absurd hat (by omega)⟩
      · rw [List.mem_singleton] at hq3
        subst hq3
        refine ⟨fun hat => ?_, fun hat => rfl⟩
        rw [ht1] at hat
        omega
    · rw [List.mem_singleton] at hq''
      subst hq''
      refine ⟨fun hat => rfl, fun hat => ?_⟩
      rw [ht2] at hat
      omega
  refine ⟨aggOf (createPost (createPost s inp1).1 inp2).1
      (createPost (createPost s inp1).1 inp2).2,
    aggOf (createPost (createPost s inp1).1 inp2).1 (createPost s inp1).2,
    rfl, rfl, ?_, fun a ha => (huniq a ha).1, fun a ha => (huniq a ha).2⟩
  exact sublist_of_mem_lt _ _ _ hmm2 hmm1 (by show s.time < s.time + 1; omega)

/-- A concrete new-post input used to evaluate the theorems. -/
def sampleInsert : InsertPost :=
  { authorName := "ali", authorHandle := "ali1", authorAvatar := "a.png"
    content := "first", image := none }

theorem posts_newest_first_witness :
    (∀ p ∈ emptyStore.posts, p.createdAt < emptyStore.time) ∧
    ((getPostsByRoom emptyStore "r").Pairwise
        (fun a b => b.createdAt ≤ a.createdAt) ∧
      (getPosts emptyStore).Pairwise
        (fun a b => b.createdAt ≤ a.createdAt) ∧
      ∃ e2 e1 : PostAgg,
        e2.createdAt = emptyStore.time + 1 ∧
        e1.createdAt = emptyStore.time ∧
        [e2, e1].Sublist
          (getPosts (createPost (createPost emptyStore sampleInsert).1
            sampleInsert).1) ∧
        (∀ a ∈ getPosts (createPost (createPost emptyStore sampleInsert).1
            sampleInsert).1, a.createdAt = emptyStore.time + 1 → a = e2) ∧
        (∀ a ∈ getPosts (createPost (createPost emptyStore sampleInsert).1
            sampleInsert).1, a.createdAt = emptyStore.time → a = e1)) :=
  ⟨by decide,
    posts_newest_first emptyStore "r" sampleInsert sampleInsert (by decide)⟩

theorem toggle_with_duplicates_witness :
    2 ≤ countPair dupStore "0" "u1" ∧
    (dupStore.likes.map Like.id).Nodup ∧
    ((toggleLike dupStore "0" "u1").2 = false ∧
      countPair (toggleLike dupStore "0" "u1").1 "0" "u1" + 1 =
        countPair dupStore "0" "u1" ∧
      checkUserLike (toggleLike dupStore "0" "u1").1 "0" "u1" = true) :=
  ⟨by decide, by decide,
    toggle_with_duplicates dupStore "0" "u1" (by decide) (by decide)⟩

end Storage
